import Mathlib

/-!
Verification of the decision engine of the ai_transcribe audio analyzer
(src/main.py) against its natural-language specification.

Python strings are modelled as lists of Unicode code points (`List Nat`).
Library calls used by the code are modelled as follows:
* str.lower() is the simple one-to-one case mapping on the ASCII Latin and
  Cyrillic ranges (the only alphabets the program manipulates);
* str.strip() removes the ASCII whitespace characters from both ends;
* the regular expressions of main.py are compiled by hand into decidable
  functions over code-point lists (each is named after the place it embeds);
* the remote transcription / LLM services, the acoustic feature extraction
  and the filesystem are oracles passed in explicitly.
-/

set_option maxRecDepth 20000

namespace AiTranscribe

/-- A Python string, as a list of Unicode code points. -/
abbrev PyStr := List Nat

/-- Encode a Lean string literal as a list of code points. -/
def pyOfString (s : String) : PyStr := s.data.map Char.toNat

/-- Uppercase ASCII Latin letter A-Z. -/
def isUpperLatin (c : Nat) : Bool := 0x41 ≤ c && c ≤ 0x5A

/-- Uppercase Cyrillic letter А-Я. -/
def isUpperCyr (c : Nat) : Bool := 0x410 ≤ c && c ≤ 0x42F

/-- Simple lowercase mapping (model of str.lower() on the alphabets in use:
A-Z, А-Я and Ё; every other code point is fixed). -/
def lowerCode (c : Nat) : Nat :=
  if isUpperLatin c then c + 32
  else if isUpperCyr c then c + 32
  else if c = 0x401 then 0x451
  else c

/-- Model of str.lower(). -/
def pyLower (l : PyStr) : PyStr := l.map lowerCode

/-- ASCII whitespace, the characters stripped by str.strip(). -/
def isPySpace (c : Nat) : Bool :=
  c = 0x20 || c = 0x09 || c = 0x0A || c = 0x0D || c = 0x0B || c = 0x0C

/-- Model of str.strip(): drop whitespace from both ends. -/
def pyStrip (l : PyStr) : PyStr :=
  ((l.dropWhile isPySpace).reverse.dropWhile isPySpace).reverse

/-- Lowercase ASCII Latin letter a-z (regex class a-z). -/
def isLatinLower (c : Nat) : Bool := 0x61 ≤ c && c ≤ 0x7A

/-- Lowercase Cyrillic letter а-я or ё (regex class а-яё). -/
def isCyrLower (c : Nat) : Bool := (0x430 ≤ c && c ≤ 0x44F) || c = 0x451

/-- The regex class [a-zа-яё] used by findall in main.py. -/
def isAlphaWord (c : Nat) : Bool := isLatinLower c || isCyrLower c

/-- ASCII digit 0-9. -/
def isDigitCode (c : Nat) : Bool := 0x30 ≤ c && c ≤ 0x39

/-- Word character for the regexes of main.py (class backslash-w):
letters of the two supported alphabets in either case, digits, underscore. -/
def isPyWord (c : Nat) : Bool :=
  isAlphaWord c || isUpperLatin c || isUpperCyr c || c = 0x401 ||
    isDigitCode c || c = 0x5F

/-- Maximal runs of characters satisfying p (tokenizer used to model
re.findall of a character-class regex and str.split). The first argument of
the recursion is the remaining input, the second the current run reversed. -/
def tokensByAux (p : Nat → Bool) : PyStr → PyStr → List PyStr
  | [], acc => if acc.isEmpty then [] else [acc.reverse]
  | c :: t, acc =>
    if p c then tokensByAux p t (c :: acc)
    else if acc.isEmpty then tokensByAux p t []
    else acc.reverse :: tokensByAux p t []

/-- Maximal runs of characters satisfying p. -/
def tokensBy (p : Nat → Bool) (l : PyStr) : List PyStr := tokensByAux p l []

/-- Model of re.findall(r"[a-zа-яё]+", t). -/
def findAlphaWords (l : PyStr) : List PyStr := tokensBy isAlphaWord l

/-- Model of str.split() (split on whitespace runs). -/
def pySplitWs (l : PyStr) : List PyStr := tokensBy (fun c => !(isPySpace c)) l

/-- Whether pat is an initial segment of hay. -/
def startsWithStr : PyStr → PyStr → Bool
  | _, [] => true
  | [], _ :: _ => false
  | a :: as, b :: bs => a == b && startsWithStr as bs

/-- Model of the Python substring test (pat in hay). -/
def containsSub : PyStr → PyStr → Bool
  | [], pat => startsWithStr [] pat
  | c :: t, pat => startsWithStr (c :: t) pat || containsSub t pat

/-- Model of re.search of the pattern (.) followed by the same character
three or more further times: four identical consecutive characters.
The dot of the regex does not match a newline. -/
def hasQuadRun : PyStr → Bool
  | a :: b :: c :: d :: rest =>
    (a == b && b == c && c == d && a != 0x0A) || hasQuadRun (b :: c :: d :: rest)
  | _ => false

/-- The Russian vowels of the hallucination rule (аоуэыиеёюя). -/
def isRussianVowel (c : Nat) : Bool :=
  c = 0x430 || c = 0x43E || c = 0x443 || c = 0x44D || c = 0x44B ||
    c = 0x438 || c = 0x435 || c = 0x451 || c = 0x44E || c = 0x44F

/-- Model of re.search(r"[аоуэыиеёюя]{5,}"): five consecutive Russian vowels. -/
def hasVowelRun5 : PyStr → Bool
  | a :: b :: c :: d :: e :: rest =>
    (isRussianVowel a && isRussianVowel b && isRussianVowel c &&
      isRussianVowel d && isRussianVowel e) || hasVowelRun5 (b :: c :: d :: e :: rest)
  | _ => false

/-- The character class of hallucination rule 1: [.!?,#-_]. -/
def isPunctRule1 (c : Nat) : Bool :=
  c = 0x2E || c = 0x21 || c = 0x3F || c = 0x2C || c = 0x23 || c = 0x2D || c = 0x5F

/-- Number of distinct elements (model of len(set(words))). -/
def countDistinct (ws : List PyStr) : Nat := ws.dedup.length

/-- Embeds AudioAnalyzer._is_likely_hallucination (src/main.py:855-903).
The argument is the already lowercased and stripped result text. -/
def is_likely_hallucination (text : PyStr) : Bool :=
  if text.length < 3 then false
  else if text.length ≤ 5 && text.all isPunctRule1 then true
  else if text.all (fun c => !(isCyrLower c || isLatinLower c || isPySpace c)) then true
  else if text.head? == some 0x5B && text.getLast? == some 0x5D then true
  else if hasQuadRun text then true
  else if hasVowelRun5 (pyLower text) then true
  else if text.length ≤ 3 && (pySplitWs text).length ≤ 1 &&
      countDistinct (pySplitWs text) < (pySplitWs text).length then true
  else false

/-- The prompt keyword list of AudioAnalyzer._filter_prompt_from_result. -/
def promptKeywords : List PyStr :=
  [pyOfString "дословную", pyOfString "полную", pyOfString "транскрипцию",
   pyOfString "без перевода", pyOfString "сохраняй язык",
   pyOfString "не интерпретируй", pyOfString "не сокращай",
   pyOfString "не исправляй"]

/-- Count of prompt keywords occurring in the lowered result. -/
def countKeywordMatches (rl : PyStr) : Nat :=
  (promptKeywords.filter (fun k => containsSub rl k)).length

/-- Embeds AudioAnalyzer._filter_prompt_from_result (src/main.py:905-956).
The float test len(prompt)/len(result) > 0.5 is the exact integer test
2*len(prompt) > len(result). -/
def filter_prompt_from_result (result prompt : PyStr) : PyStr :=
  if result.isEmpty || prompt.isEmpty then result
  else
    let rl := pyStrip (pyLower result)
    let pl := pyStrip (pyLower prompt)
    if rl = pl then []
    else if 100 < rl.length ∧ rl.length < 2 * pl.length ∧
        (containsSub rl (pl.take 50) || containsSub pl (rl.take 50)) then []
    else if promptKeywords.length / 2 < countKeywordMatches rl then []
    else if is_likely_hallucination rl then []
    else result

/-- The constant TRANSCRIPTION_PROMPT of src/main.py. -/
def TRANSCRIPTION_PROMPT : PyStr := pyOfString
  "Дай дословную ПОЛНУЮ транскрипцию без перевода и перефразирования. Сохраняй язык оригинала, не смешивай языки. Не интерпретируй смысл, не сокращай, не исправляй. Если часть неразборчива — оставь как есть или пропусти без домыслов. ВНИМАНИЕ: Если это музыка с повторяющимся припевом - распознай ВСЕ повторения. Если это плач ребенка или нечеловеческие звуки - НЕ придумывай слова, верни пустую строку.\n\nОрфография и пунктуация: используй корректную русскую орфографию и пунктуацию (точки, запятые, вопросительные знаки). Сохраняй разговорные формы (например: «Чё») как в оригинале, но избегай искажённых слов (например «Посони» → «Позвони», если по звучанию это очевидно)."

/-- The constant MUSIC_TRANSCRIPTION_PROMPT of src/main.py. -/
def MUSIC_TRANSCRIPTION_PROMPT : PyStr := pyOfString
  "Это музыкальная композиция с вокалом. Распознай ВСЕ слова песни от начала до конца. Дай дословную ПОЛНУЮ транскрипцию без перевода и перефразирования. Сохраняй язык оригинала, не интерпретируй, не сокращай. Внимательно слушай начало песни - там тоже есть слова. Если есть повторяющийся припев - распознай ВСЕ повторения полностью. Если это инструментальная музыка без слов - верни пустую строку. ВАЖНО: Распознай весь текст песни, включая все куплеты и припевы. Не останавливайся на первом фрагменте - слушай до конца.\n\nОрфография и пунктуация: ставь знаки препинания, оформляй предложения, сохраняй разговорные формы («Чё») и правильные слова («Позвони», «Не говори нет»), избегай искажений (не «Посони»)."

/-- Tokens matched against the vocalization regexes: the word-boundary
anchors make each pattern match exactly a maximal run of word characters,
so the patterns are tested on those runs. -/
def vocTokens (t : PyStr) : List PyStr := tokensBy isPyWord t

/-- A token consisting of one or more repetitions of la (regex (la)+
between word boundaries); likewise the three following detectors. -/
def laRun : PyStr → Bool
  | 0x6C :: 0x61 :: rest => rest.isEmpty || laRun rest
  | _ => false

/-- Token made of repetitions of na. -/
def naRun : PyStr → Bool
  | 0x6E :: 0x61 :: rest => rest.isEmpty || naRun rest
  | _ => false

/-- Token made of repetitions of da. -/
def daRun : PyStr → Bool
  | 0x64 :: 0x61 :: rest => rest.isEmpty || daRun rest
  | _ => false

/-- Token made of repetitions of ba. -/
def baRun : PyStr → Bool
  | 0x62 :: 0x61 :: rest => rest.isEmpty || baRun rest
  | _ => false

/-- Token made of units from ah, aah, aaa (regex (ah|aah|aaa)+): at each
step the next unit is determined by the following characters, so the
greedy match below decides the regex. -/
def ahRun : PyStr → Bool
  | 0x61 :: 0x68 :: rest => rest.isEmpty || ahRun rest
  | 0x61 :: 0x61 :: 0x68 :: rest => rest.isEmpty || ahRun rest
  | 0x61 :: 0x61 :: 0x61 :: rest => rest.isEmpty || ahRun rest
  | _ => false

/-- Token made of units from oh, ooh, ooo (regex (oh|ooh|ooo)+). -/
def ohRun : PyStr → Bool
  | 0x6F :: 0x68 :: rest => rest.isEmpty || ohRun rest
  | 0x6F :: 0x6F :: 0x68 :: rest => rest.isEmpty || ohRun rest
  | 0x6F :: 0x6F :: 0x6F :: rest => rest.isEmpty || ohRun rest
  | _ => false

/-- Token made of units from yeah, yea (regex (yeah|yea)+). -/
def yeahRun : PyStr → Bool
  | 0x79 :: 0x65 :: 0x61 :: 0x68 :: rest => rest.isEmpty || yeahRun rest
  | 0x79 :: 0x65 :: 0x61 :: rest => rest.isEmpty || yeahRun rest
  | _ => false

/-- Any of the seven vocalization patterns matches somewhere in t. -/
def vocalPatternHit (t : PyStr) : Bool :=
  (vocTokens t).any fun tok =>
    laRun tok || naRun tok || daRun tok || baRun tok ||
      ahRun tok || ohRun tok || yeahRun tok

/-- Length of the space-joined word list (model of len(" ".join(words))). -/
def joinSpLen (ws : List PyStr) : Nat := (List.intercalate [0x20] ws).length

/-- Embeds AudioAnalyzer._looks_like_vocalizations (src/main.py:1058-1076). -/
def looks_like_vocalizations (text : PyStr) : Bool :=
  if text.isEmpty then false
  else
    let t := pyLower text
    if vocalPatternHit t then true
    else
      let words := findAlphaWords t
      joinSpLen words ≤ 40 && countDistinct words ≤ max 1 (words.length / 2)

/-- The character class of the noise regex [шщсзh]. -/
def isShush (c : Nat) : Bool :=
  c = 0x448 || c = 0x449 || c = 0x441 || c = 0x437 || c = 0x68

/-- Full match of the regex alternation of non-word material or a single
all-letter run (pattern of _looks_like_noise rule 1). -/
def noiseClassFull (t : PyStr) : Bool :=
  (!t.isEmpty && t.all fun c =>
      !(isPyWord c) || c = 0x5F || c = 0x2D || c = 0x2013 || c = 0x2014 || c = 0x7E) ||
    (!t.isEmpty && t.all isAlphaWord)

/-- Embeds AudioAnalyzer._looks_like_noise (src/main.py:1078-1100). -/
def looks_like_noise (text : PyStr) : Bool :=
  if text.isEmpty then false
  else
    let t := pyStrip (pyLower text)
    if t.length ≤ 3 && !(t.contains 0x20) && noiseClassFull t &&
        !(looks_like_vocalizations t) then true
    else if (!t.isEmpty && t.all isShush) && t.length ≤ 10 then true
    else
      let words := findAlphaWords t
      if words.length ≤ 1 &&
          (t.length ≤ 4 || (!words.isEmpty && (words.headD []).length ≤ 3)) &&
          !(looks_like_vocalizations t) then true
      else false

/-- Outcome of the chat-completion call of _classify_with_ai, as seen by the
JSON handling code: the call raised (or the parsed JSON was not an object),
or it parsed to an object whose classification field holds the given value
(none when the key is absent), or it was not valid JSON and the raw response
text goes to the substring fallback. -/
inductive LlmResp where
  | err : LlmResp
  | parsed : Option PyStr → LlmResp
  | unparsed : PyStr → LlmResp

/-- Embeds AudioAnalyzer._classify_with_ai (src/main.py:1157-1208). -/
def classify_with_ai (resp : LlmResp) : PyStr :=
  match resp with
  | .err => pyOfString "шум"
  | .parsed c =>
    let cl := c.getD (pyOfString "noise")
    if cl = pyOfString "music" then pyOfString "музыка"
    else if cl = pyOfString "speech" then pyOfString "речь"
    else pyOfString "шум"
  | .unparsed txt =>
    let rl := pyLower txt
    if containsSub rl (pyOfString "music") || containsSub rl (pyOfString "музыка") then
      pyOfString "музыка"
    else if containsSub rl (pyOfString "speech") || containsSub rl (pyOfString "речь") then
      pyOfString "речь"
    else pyOfString "шум"

/-- The oracles classify_audio consults: the raw transcription returned by
the service when no transcript is passed in, the acoustic verdict of
_is_instrumental_music on the file (that helper never raises), and the LLM
response. -/
structure ClassifyEnv where
  svcResult : PyStr
  acoustic : Bool
  llm : LlmResp

/-- Embeds AudioAnalyzer.classify_audio (src/main.py:1008-1056).
Returns the category together with a flag recording whether the LLM
arbitration step (_classify_with_ai) was invoked. -/
def classify_audio (env : ClassifyEnv) (transcript_text : Option PyStr) : PyStr × Bool :=
  let tt := match transcript_text with
    | none => filter_prompt_from_result env.svcResult TRANSCRIPTION_PROMPT
    | some t => t
  if !tt.isEmpty && looks_like_noise tt then (pyOfString "шум", false)
  else if !tt.isEmpty && looks_like_vocalizations tt then (pyOfString "музыка", false)
  else if tt.isEmpty then
    (if env.acoustic then (pyOfString "музыка", false) else (pyOfString "шум", false))
  else
    let c := classify_with_ai env.llm
    if c = pyOfString "шум" ∧ env.acoustic then (pyOfString "музыка", true) else (c, true)

/-- Oracles of AudioAnalyzer.transcribe_audio: the text the transcription
service returns for the n-th call issued (already stripped, empty on a
per-call service error, as in _transcribe_with_language), the verdict of
_is_instrumental_music on the file, the post-processing enable flag and
the text the LLM correction pass would return. -/
structure TranscribeEnv where
  svc : Nat → PyStr
  looksMusical : Bool
  enablePost : Bool
  post : PyStr → PyStr

/-- The replacement step of transcribe_audio: a new raw result replaces the
running one exactly when it is strictly longer (the comparisons
len(result_x) > len(result) of src/main.py:813, 827, 834). -/
def pickRaw (cur new : PyStr) : PyStr :=
  if cur.length < new.length then new else cur

/-- The attempt sequence of AudioAnalyzer.transcribe_audio
(src/main.py:802-840): attempt 1 with the primary language; attempt 2
(auto language) when the raw result is shorter than 10 characters; when the
running result is shorter than 100 characters and the file looks musical,
attempt 3 (music prompt) and, if still short, attempt 4 (en, music prompt).
Returns the selected raw text and the number of service calls issued. -/
def selectRaw (svc : Nat → PyStr) (looksMusical : Bool) : PyStr × Nat :=
  let r1 := svc 0
  let s2 : PyStr × Nat :=
    if r1.length < 10 then (pickRaw r1 (svc 1), 2) else (r1, 1)
  if s2.1.length < 100 then
    if looksMusical then
      let rBest := pickRaw s2.1 (svc s2.2)
      if rBest.length < 100 then (pickRaw rBest (svc (s2.2 + 1)), s2.2 + 2)
      else (rBest, s2.2 + 1)
    else s2
  else s2

/-- Embeds AudioAnalyzer.transcribe_audio (src/main.py:783-851).
Returns the final text together with the number of calls issued to the
transcription service (_transcribe_with_language invocations). -/
def transcribe_audio (env : TranscribeEnv) : PyStr × Nat :=
  let s3 := selectRaw env.svc env.looksMusical
  let filtered := filter_prompt_from_result s3.1 TRANSCRIPTION_PROMPT
  let final :=
    if env.enablePost ∧ ¬filtered.isEmpty ∧ 10 < (pyStrip filtered).length then
      env.post filtered
    else filtered
  (final, s3.2)

/-- Modelled from the spec (section 4.2), for comparison with the code:
every attempt is immediately passed through ResultFilter, the thresholds
are tested on filtered lengths, the best attempt is the one of strictly
greatest filtered length (ties keep the earlier attempt), and the selected
text is passed through ResultFilter once more at the end. -/
def transcribe_spec (svc : Nat → PyStr) (looksMusical : Bool) : PyStr :=
  let f1 := filter_prompt_from_result (svc 0) TRANSCRIPTION_PROMPT
  let s2 : PyStr × Nat :=
    if f1.length < 10 then
      let f2 := filter_prompt_from_result (svc 1) TRANSCRIPTION_PROMPT
      (if f1.length < f2.length then f2 else f1, 2)
    else (f1, 1)
  let s3 : PyStr :=
    if s2.1.length < 100 then
      if looksMusical then
        let f3 := filter_prompt_from_result (svc s2.2) MUSIC_TRANSCRIPTION_PROMPT
        let b3 := if s2.1.length < f3.length then f3 else s2.1
        if b3.length < 100 then
          let f4 := filter_prompt_from_result (svc (s2.2 + 1)) MUSIC_TRANSCRIPTION_PROMPT
          if b3.length < f4.length then f4 else b3
        else b3
      else s2.1
    else s2.1
  filter_prompt_from_result s3 TRANSCRIPTION_PROMPT

/-- The acoustic feature vector computed by _is_instrumental_music, with
the float quantities modelled as rationals, plus the boolean outcome of the
has_periodic_onsets autocorrelation fallback. -/
structure AcousticFeatures where
  harmonic_ratio : ℚ
  tempo : ℚ
  onset_mean : ℚ
  flatness : ℚ
  chroma_energy : ℚ
  chroma_var : ℚ
  periodic_onsets : Bool

/-- Signal rhythmic of _is_instrumental_music. -/
def rhythmicSig (f : AcousticFeatures) : Bool :=
  decide (30 ≤ f.tempo) || f.periodic_onsets

/-- Signal harmonic of _is_instrumental_music. -/
def harmonicSig (f : AcousticFeatures) : Bool :=
  decide ((20 : ℚ)/100 ≤ f.harmonic_ratio) ||
    (decide ((10 : ℚ)/100 ≤ f.chroma_energy) && decide ((2 : ℚ)/1000 ≤ f.chroma_var))

/-- Signal non_flat of _is_instrumental_music. -/
def nonFlatSig (f : AcousticFeatures) : Bool :=
  decide (f.flatness < (70 : ℚ)/100)

/-- Signal onset_active of _is_instrumental_music. -/
def onsetActiveSig (f : AcousticFeatures) : Bool :=
  decide ((6 : ℚ)/100 < f.onset_mean)

/-- The score of _is_instrumental_music: Python sums the list of the four
booleans. -/
def instrumentalScore (f : AcousticFeatures) : Nat :=
  (rhythmicSig f).toNat + (harmonicSig f).toNat + (nonFlatSig f).toNat +
    (onsetActiveSig f).toNat

/-- Embeds AudioAnalyzer._is_instrumental_music (src/main.py:1102-1155).
The argument is none when feature extraction fails anywhere inside the
try block (the except arm returns False). -/
def is_instrumental_music (r : Option AcousticFeatures) : Bool :=
  match r with
  | none => false
  | some f => decide (2 ≤ instrumentalScore f)

/-- The temporary artifacts named by the cleanup invariant: the
{stem}_preclean.wav intermediate of _preclean_for_demucs, the mkdtemp
output directory of the Demucs run, and the converted MP3 of
convert_audio_format. -/
inductive Artifact where
  | preclean : Artifact
  | demucsTempDir : Artifact
  | convertedMp3 : Artifact
deriving DecidableEq

/-- How the Demucs stage of _enhance_audio_for_transcription ends:
the import fails (before the temporary directory is created), the run
succeeds and a vocals file is found, the run succeeds but no vocals file
is found, or separate.main raises after mkdtemp. -/
inductive DemucsOutcome where
  | unavailable : DemucsOutcome
  | ok : DemucsOutcome
  | noVocals : DemucsOutcome
  | failed : DemucsOutcome

/-- Filesystem-relevant run parameters of one analyze_audio call. -/
structure RunEnv where
  enhancementEnabled : Bool
  precleanOk : Bool
  demucs : DemucsOutcome
  conversionNeeded : Bool

/-- Artifacts created by _enhance_audio_for_transcription
(src/main.py:395-511 with _preclean_for_demucs, 513-540). -/
def enhanceCreated (env : RunEnv) : List Artifact :=
  if !env.enhancementEnabled then []
  else
    (if env.precleanOk then [Artifact.preclean] else []) ++
      match env.demucs with
      | .unavailable => []
      | .ok => [Artifact.demucsTempDir]
      | .noVocals => [Artifact.demucsTempDir]
      | .failed => [Artifact.demucsTempDir]

/-- Artifacts removed by _enhance_audio_for_transcription: shutil.rmtree
of the temporary directory runs only on the two in-try exits where the
Demucs run itself did not raise; with SKIP_DEMUCS_ON_ERROR = False the
exception arm falls through to _enhance_with_librosa without any removal,
and no path removes the precleaning intermediate. -/
def enhanceRemoved (env : RunEnv) : List Artifact :=
  if !env.enhancementEnabled then []
  else
    match env.demucs with
    | .unavailable => []
    | .ok => [Artifact.demucsTempDir]
    | .noVocals => [Artifact.demucsTempDir]
    | .failed => []

/-- Artifacts created over one analyze_audio run (src/main.py:1210-1254):
the converted MP3 of convert_audio_format plus the enhancement artifacts. -/
def runCreated (env : RunEnv) : List Artifact :=
  (if env.conversionNeeded then [Artifact.convertedMp3] else []) ++ enhanceCreated env

/-- Artifacts removed over one analyze_audio run: the enhancement removals
plus the os.unlink of the converted file at src/main.py:1241-1246. -/
def runRemoved (env : RunEnv) : List Artifact :=
  enhanceRemoved env ++ (if env.conversionNeeded then [Artifact.convertedMp3] else [])

/-- Temporary artifacts still on disk when analyze_audio returns. -/
def runLeftover (env : RunEnv) : List Artifact :=
  (runCreated env).filter (fun a => !(runRemoved env).contains a)

/-! Theorems -/

/-- The three category strings. -/
def catMusic : PyStr := pyOfString "музыка"

/-- The speech category string. -/
def catSpeech : PyStr := pyOfString "речь"

/-- The noise category string. -/
def catNoise : PyStr := pyOfString "шум"

lemma classify_with_ai_mem (resp : LlmResp) :
    classify_with_ai resp = catMusic ∨ classify_with_ai resp = catSpeech ∨
      classify_with_ai resp = catNoise := by
  cases resp with
  | err => right; right; rfl
  | parsed c => unfold classify_with_ai; dsimp only; split_ifs <;> tauto
  | unparsed txt => unfold classify_with_ai; dsimp only; split_ifs <;> tauto

lemma pickRaw_of_le {cur new : PyStr} (h : new.length ≤ cur.length) :
    pickRaw cur new = cur := by
  unfold pickRaw
  rw [if_neg]
  omega

lemma pickRaw_of_lt {cur new : PyStr} (h : cur.length < new.length) :
    pickRaw cur new = new := by
  unfold pickRaw
  rw [if_pos h]

lemma selectRaw_calls_le (svc : Nat → PyStr) (lm : Bool) :
    (selectRaw svc lm).2 ≤ 4 := by
  unfold selectRaw
  dsimp only
  split_ifs <;> dsimp only <;> omega

/-- Greatest raw length in a list of attempt results. -/
def maxRawLen (l : List PyStr) : Nat := (l.map List.length).foldr max 0

/-- Modelled from the amended claim's words: the selected attempt is the
EARLIEST element of maximal raw length — exactly what "a strictly longer
raw result replaces the running one, an exact tie keeps the earlier
attempt" amounts to over the whole run. -/
def bestEarliest (l : List PyStr) : PyStr :=
  (l.find? (fun x => x.length == maxRawLen l)).getD []

lemma maxRawLen_cons (a : PyStr) (l : List PyStr) :
    maxRawLen (a :: l) = max a.length (maxRawLen l) := rfl

lemma maxRawLen_append_one (l : List PyStr) (y : PyStr) :
    maxRawLen (l ++ [y]) = max (maxRawLen l) y.length := by
  induction l with
  | nil =>
    show max y.length 0 = max 0 y.length
    omega
  | cons a t ih =>
    rw [List.cons_append, maxRawLen_cons, maxRawLen_cons, ih, Nat.max_assoc]

lemma bestEarliest_singleton (x : PyStr) : bestEarliest [x] = x := by
  unfold bestEarliest
  have hM : maxRawLen [x] = x.length := by
    show max x.length 0 = x.length
    omega
  rw [hM]
  simp [List.find?]

lemma bestEarliest_cons {rest : List PyStr} (a : PyStr) :
    bestEarliest (a :: rest) =
      if maxRawLen rest ≤ a.length then a else bestEarliest rest := by
  by_cases h : maxRawLen rest ≤ a.length
  · rw [if_pos h]
    unfold bestEarliest
    have hM : maxRawLen (a :: rest) = a.length := by rw [maxRawLen_cons]; omega
    rw [hM]
    simp [List.find?]
  · rw [if_neg h]
    unfold bestEarliest
    have hM : maxRawLen (a :: rest) = maxRawLen rest := by rw [maxRawLen_cons]; omega
    rw [hM]
    have hpa : (a.length == maxRawLen rest) = false := by
      simp only [beq_eq_false_iff_ne, ne_eq]
      omega
    simp [List.find?, hpa]

lemma bestEarliest_length : ∀ {l : List PyStr}, l ≠ [] →
    (bestEarliest l).length = maxRawLen l := by
  intro l hl
  induction l with
  | nil => exact absurd rfl hl
  | cons a rest ih =>
    rcases eq_or_ne rest [] with h0 | h0
    · subst h0
      rw [bestEarliest_singleton]
      show a.length = max a.length 0
      omega
    · rw [bestEarliest_cons a]
      by_cases h : maxRawLen rest ≤ a.length
      · rw [if_pos h, maxRawLen_cons, Nat.max_eq_left h]
      · rw [if_neg h, maxRawLen_cons, ih h0, Nat.max_eq_right (by omega)]

lemma bestEarliest_append_one : ∀ {l : List PyStr}, l ≠ [] → ∀ y : PyStr,
    bestEarliest (l ++ [y]) = pickRaw (bestEarliest l) y := by
  intro l hl
  induction l with
  | nil => exact absurd rfl hl
  | cons a rest ih =>
    intro y
    rw [List.cons_append, @bestEarliest_cons (rest ++ [y]) a,
      @bestEarliest_cons rest a, maxRawLen_append_one]
    rcases eq_or_ne rest [] with h0 | h0
    · subst h0
      rw [List.nil_append, bestEarliest_singleton]
      have hM0 : maxRawLen ([] : List PyStr) = 0 := rfl
      rw [hM0, if_pos (Nat.zero_le a.length)]
      by_cases h2 : a.length < y.length
      · rw [if_neg (by omega), pickRaw_of_lt h2]
      · rw [if_pos (by omega), pickRaw_of_le (by omega)]
    · rw [ih h0 y]
      have hbl := bestEarliest_length h0
      by_cases h1 : maxRawLen rest ≤ a.length
      · rw [if_pos h1]
        by_cases h2 : a.length < y.length
        · rw [pickRaw_of_lt h2, if_neg (by omega),
            pickRaw_of_lt (by rw [hbl]; omega)]
        · rw [if_pos (by omega), pickRaw_of_le (by omega)]
      · rw [if_neg h1, if_neg (by omega)]

/-- Claim C1: for every input handle and language pair (here: for every
oracle environment, covering all service replies and both acoustic
verdicts), transcribe_audio issues at most 4 distinct calls into the
transcription service. -/
theorem C1_transcribe_at_most_four_calls (env : TranscribeEnv) :
    (transcribe_audio env).2 ≤ 4 :=
  selectRaw_calls_le env.svc env.looksMusical

/-- Claim C4: for all (text, prompt) pairs the filtered result is no longer
than the input; more precisely the filter returns the empty string when one
of its checks fires and otherwise returns the input text unchanged. -/
theorem C4_filter_empty_or_unchanged (text prompt : PyStr) :
    (filter_prompt_from_result text prompt).length ≤ text.length ∧
      (filter_prompt_from_result text prompt = [] ∨
        filter_prompt_from_result text prompt = text) := by
  unfold filter_prompt_from_result
  dsimp only
  split_ifs <;> simp

/-- Claim C5: when feature extraction succeeds the instrumental-music
verdict is true if and only if at least 2 of the 4 boolean signals
(rhythmic, harmonic, non_flat, onset_active) are true; on any internal
failure (the none outcome) the verdict is false (the function never
raises: it is total on both outcomes). -/
theorem C5_instrumental_two_of_four (f : AcousticFeatures) :
    (is_instrumental_music (some f) = true ↔
      2 ≤ ([rhythmicSig f, harmonicSig f, nonFlatSig f,
            onsetActiveSig f].count true)) ∧
      is_instrumental_music none = false := by
  have h : ∀ a b c d : Bool,
      (decide (2 ≤ a.toNat + b.toNat + c.toNat + d.toNat) = true ↔
        2 ≤ ([a, b, c, d].count true)) := by decide
  exact ⟨h _ _ _ _, rfl⟩

/-- Claim C2: for every transcript and oracle environment classify_audio
returns a category among exactly {music, speech, noise}; the LLM step
yields noise when the call raises, when the parsed JSON lacks the
classification field, and when the response is unparseable and the
substring fallback finds neither a music nor a speech token. -/
theorem C2_classify_closed_categories (env : ClassifyEnv) (tt : Option PyStr) :
    ((classify_audio env tt).1 = catMusic ∨ (classify_audio env tt).1 = catSpeech ∨
      (classify_audio env tt).1 = catNoise) ∧
      classify_with_ai LlmResp.err = catNoise ∧
      classify_with_ai (LlmResp.parsed none) = catNoise ∧
      (∀ raw : PyStr,
        containsSub (pyLower raw) (pyOfString "music") = false →
        containsSub (pyLower raw) (pyOfString "музыка") = false →
        containsSub (pyLower raw) (pyOfString "speech") = false →
        containsSub (pyLower raw) (pyOfString "речь") = false →
        classify_with_ai (LlmResp.unparsed raw) = catNoise) := by
  refine ⟨?_, rfl, rfl, ?_⟩
  · unfold classify_audio
    dsimp only
    split_ifs <;> first
      | tauto
      | exact classify_with_ai_mem env.llm
  · intro raw h1 h2 h3 h4
    unfold classify_with_ai
    dsimp only
    rw [h1, h2, h3, h4]
    rfl

/-- Witness for C2 at a concrete unparseable LLM response. -/
theorem C2_classify_closed_categories_witness :
    (classify_audio ⟨[], false, LlmResp.err⟩ (some (pyOfString "привет"))).1 = catMusic ∧
      classify_with_ai (LlmResp.unparsed (pyOfString "no idea")) = catNoise := by
  refine ⟨?_, ?_⟩
  · rcases (C2_classify_closed_categories ⟨[], false, LlmResp.err⟩
      (some (pyOfString "привет"))).1 with h | h | h <;> first | exact h | (exfalso; revert h; decide)
  · exact (C2_classify_closed_categories ⟨[], false, LlmResp.err⟩ none).2.2.2
      (pyOfString "no idea") (by decide) (by decide) (by decide) (by decide)

/-- Service oracle of the C3 counterexample: attempt 1 returns five dots
(a hallucination the filter empties), attempt 2 returns abc. -/
def svcC3 : Nat → PyStr :=
  fun n => if n = 0 then pyOfString "....." else if n = 1 then pyOfString "abc" else []

/-- Claim C3 counterexample: under the claimed rule (attempts immediately
filtered, best taken by strictly greatest filtered length) the run with raw
results "....." and "abc" selects "abc" (filtered lengths 0 and 3), but the
code compares raw lengths (5 vs 3), keeps the dots and filters only the
final selection, returning the empty string. -/
theorem C3_counterexample :
    transcribe_spec svcC3 false = pyOfString "abc" ∧
      (transcribe_audio ⟨svcC3, false, false, id⟩).1 = [] ∧
      (pyOfString "abc" : PyStr) ≠ [] := by
  refine ⟨by decide, by decide, by decide⟩

/-- Modelled from the amended claim's words: the chronological list of raw
attempt results the orchestrator obtains, following 4.2's attempt
conditions read on raw lengths (attempt 2 when attempt 1 is shorter than
10; attempts 3 and 4, at the next service-call indices, when the running
best — the earliest longest attempt so far — is shorter than 100 and the
acoustic verdict holds). -/
def attemptsRun (svc : Nat → PyStr) (lm : Bool) : List PyStr :=
  if (svc 0).length < 10 then
    if (bestEarliest [svc 0, svc 1]).length < 100 ∧ lm = true then
      if (bestEarliest ([svc 0, svc 1] ++ [svc 2])).length < 100 then
        ([svc 0, svc 1] ++ [svc 2]) ++ [svc 3]
      else [svc 0, svc 1] ++ [svc 2]
    else [svc 0, svc 1]
  else
    if (bestEarliest [svc 0]).length < 100 ∧ lm = true then
      if (bestEarliest ([svc 0] ++ [svc 1])).length < 100 then
        ([svc 0] ++ [svc 1]) ++ [svc 2]
      else [svc 0] ++ [svc 1]
    else [svc 0]

lemma selectRaw_eq_bestEarliest (svc : Nat → PyStr) (lm : Bool) :
    (selectRaw svc lm).1 = bestEarliest (attemptsRun svc lm) := by
  have e1 : bestEarliest [svc 0] = svc 0 := bestEarliest_singleton _
  have e2 : bestEarliest ([svc 0] ++ [svc 1]) = pickRaw (svc 0) (svc 1) := by
    rw [bestEarliest_append_one (by simp), e1]
  have e2' : bestEarliest [svc 0, svc 1] = pickRaw (svc 0) (svc 1) := e2
  have e3 : bestEarliest (([svc 0] ++ [svc 1]) ++ [svc 2]) =
      pickRaw (pickRaw (svc 0) (svc 1)) (svc 2) := by
    rw [bestEarliest_append_one (by simp), e2]
  have e3' : bestEarliest ([svc 0, svc 1] ++ [svc 2]) =
      pickRaw (pickRaw (svc 0) (svc 1)) (svc 2) := e3
  have e4' : bestEarliest (([svc 0, svc 1] ++ [svc 2]) ++ [svc 3]) =
      pickRaw (pickRaw (pickRaw (svc 0) (svc 1)) (svc 2)) (svc 3) := by
    rw [bestEarliest_append_one (by simp), e3']
  unfold selectRaw attemptsRun
  dsimp only
  by_cases h1 : (svc 0).length < 10
  · rw [if_pos h1, if_pos h1, e2']
    dsimp only
    by_cases h2 : (pickRaw (svc 0) (svc 1)).length < 100
    · by_cases hlm : lm = true
      · have hand : (pickRaw (svc 0) (svc 1)).length < 100 ∧ lm = true :=
          And.intro h2 hlm
        rw [if_pos h2, if_pos hlm, if_pos hand, e3']
        by_cases h3 : (pickRaw (pickRaw (svc 0) (svc 1)) (svc 2)).length < 100
        · rw [if_pos h3, if_pos h3, e4']
        · rw [if_neg h3, if_neg h3, e3']
      · have hand : ¬((pickRaw (svc 0) (svc 1)).length < 100 ∧ lm = true) :=
          fun hc => hlm hc.2
        rw [if_pos h2, if_neg hlm, if_neg hand, e2']
    · have hand : ¬((pickRaw (svc 0) (svc 1)).length < 100 ∧ lm = true) :=
        fun hc => h2 hc.1
      rw [if_neg h2, if_neg hand, e2']
  · rw [if_neg h1, if_neg h1, e1]
    dsimp only
    by_cases h2 : (svc 0).length < 100
    · by_cases hlm : lm = true
      · have hand : (svc 0).length < 100 ∧ lm = true := And.intro h2 hlm
        rw [if_pos h2, if_pos hlm, if_pos hand, e2]
        by_cases h3 : (pickRaw (svc 0) (svc 1)).length < 100
        · rw [if_pos h3, if_pos h3, e3]
        · rw [if_neg h3, if_neg h3, e2]
      · have hand : ¬((svc 0).length < 100 ∧ lm = true) := fun hc => hlm hc.2
        rw [if_pos h2, if_neg hlm, if_neg hand, e1]
    · have hand : ¬((svc 0).length < 100 ∧ lm = true) := fun hc => h2 hc.1
      rw [if_neg h2, if_neg hand, e1]

/-- Claim C3 amended: the orchestrator compares the attempts by RAW text
length — a strictly longer raw result replaces the running one, an exact
tie keeps the earlier attempt — and ResultFilter is applied once, to the
finally selected text: for every oracle the returned text is the filter of
the EARLIEST executed attempt of maximal raw length. -/
theorem C3_amended_raw_length_selection (svc : Nat → PyStr) (lm : Bool) :
    (transcribe_audio ⟨svc, lm, false, id⟩).1 =
      filter_prompt_from_result (bestEarliest (attemptsRun svc lm))
        TRANSCRIPTION_PROMPT := by
  have hsel := selectRaw_eq_bestEarliest svc lm
  unfold transcribe_audio
  dsimp only
  rw [if_neg (fun hc => Bool.false_ne_true hc.1), hsel]

/-- Service oracle exercising the replacement direction: attempt 1 returns
abc (3 characters, below the threshold 10), attempt 2 returns the strictly
longer abcdefgh. -/
def svcRepl : Nat → PyStr :=
  fun n => if n = 0 then pyOfString "abc" else if n = 1 then pyOfString "abcdefgh" else []

/-- Witness for C3 amended at an oracle where attempt 2 strictly exceeds
attempt 1 in raw length: the selection is attempt 2's raw text, which the
final filter passes through unchanged. -/
theorem C3_amended_raw_length_selection_witness :
    ((transcribe_audio ⟨svcRepl, false, false, id⟩).1 =
      filter_prompt_from_result (bestEarliest (attemptsRun svcRepl false))
        TRANSCRIPTION_PROMPT) ∧
      bestEarliest (attemptsRun svcRepl false) = pyOfString "abcdefgh" ∧
      (transcribe_audio ⟨svcRepl, false, false, id⟩).1 = pyOfString "abcdefgh" :=
  ⟨C3_amended_raw_length_selection svcRepl false, by decide, by decide⟩

/-- Claim C6 (code bug): the artifact accounting of one analyze_audio run,
evaluated at runs where precleaning succeeds, shows the precleaning
intermediate {stem}_preclean.wav is left behind even on the fully
successful path, and the Demucs temporary directory is also left behind
when separate.main raises. -/
theorem C6_cleanup_leaks :
    runLeftover ⟨true, true, DemucsOutcome.ok, true⟩ = [Artifact.preclean] ∧
      runLeftover ⟨true, true, DemucsOutcome.failed, true⟩ =
        [Artifact.preclean, Artifact.demucsTempDir] := by decide

/-- Claim C7 counterexample: classification of the transcript "Ааааааа"
yields music, not noise — the vocalization heuristic fires (one distinct
alphabetic word of joined length 7 ≤ 40) before any hallucination rule is
consulted on this path. -/
theorem C7_counterexample :
    classify_audio ⟨[], false, LlmResp.err⟩ (some (pyOfString "Ааааааа")) =
      (catMusic, false) ∧ catMusic ≠ catNoise := by
  refine ⟨by decide, by decide⟩

/-- Claim C7 amended: when the raw service transcript is "Ааааааа" and
classify_audio transcribes internally, the result filter empties the text
(the 4-identical-characters rule and the 5-consecutive-vowels rule both
match), and the empty transcript is classified as noise exactly when the
acoustic instrumental verdict is false — with a true acoustic verdict it is
classified as music; passing "Ааааааа" directly as the transcript yields
music via the vocalization heuristic. -/
theorem C7_amended_vowel_rule_path (llm : LlmResp) :
    classify_audio ⟨pyOfString "Ааааааа", false, llm⟩ none = (catNoise, false) ∧
      classify_audio ⟨pyOfString "Ааааааа", true, llm⟩ none = (catMusic, false) ∧
      filter_prompt_from_result (pyOfString "Ааааааа") TRANSCRIPTION_PROMPT = [] ∧
      hasVowelRun5 (pyLower (pyOfString "Ааааааа")) = true ∧
      hasQuadRun (pyStrip (pyLower (pyOfString "Ааааааа"))) = true := by
  exact ⟨rfl, rfl, rfl, rfl, rfl⟩

/-- Claim C8 counterexample: for the transcript "Find me, find me, You can
find" the vocalization heuristic does NOT fire (7 alphabetic words, 4
distinct, and 4 > 7/2 = 3), so classification falls through to the LLM
arbitration step; with a failing LLM call and a negative acoustic verdict
the category is noise, not music, and the LLM step was invoked. -/
theorem C8_counterexample :
    looks_like_vocalizations (pyOfString "Find me, find me, You can find") = false ∧
      classify_audio ⟨[], false, LlmResp.err⟩
        (some (pyOfString "Find me, find me, You can find")) = (catNoise, true) ∧
      ((catNoise, true) : PyStr × Bool) ≠ (catMusic, false) := by
  refine ⟨by decide, by decide, by decide⟩

/-- Claim C8 amended: for the transcript "Find me, find me, You can find"
neither lexical heuristic fires; classification always invokes the LLM
arbitration step and returns its verdict, overridden to music only when the
LLM said noise and the acoustic verdict is true. -/
theorem C8_amended_llm_arbitration (env : ClassifyEnv) :
    classify_audio env (some (pyOfString "Find me, find me, You can find")) =
      (if classify_with_ai env.llm = catNoise ∧ env.acoustic then (catMusic, true)
       else (classify_with_ai env.llm, true)) := by
  have hn : looks_like_noise (pyOfString "Find me, find me, You can find") = false := by
    decide
  have hv : looks_like_vocalizations (pyOfString "Find me, find me, You can find") = false := by
    decide
  have he : (pyOfString "Find me, find me, You can find").isEmpty = false := by decide
  unfold classify_audio
  simp only [hn, hv, he, Bool.and_false, Bool.not_false, Bool.and_true, if_false,
    Bool.false_eq_true, catMusic, catNoise]

/-- ASCII punctuation and symbol characters (the printable ASCII characters
that are neither letters, digits nor whitespace). -/
def isAsciiPunctSym (c : Nat) : Bool :=
  (0x21 ≤ c && c ≤ 0x2F) || (0x3A ≤ c && c ≤ 0x40) ||
    (0x5B ≤ c && c ≤ 0x60) || (0x7B ≤ c && c ≤ 0x7E)

lemma lowerCode_fixed_of_punct {c : Nat} (h : isAsciiPunctSym c = true) :
    lowerCode c = c := by
  simp only [isAsciiPunctSym, Bool.or_eq_true, Bool.and_eq_true,
    decide_eq_true_eq] at h
  unfold lowerCode isUpperLatin isUpperCyr
  simp only [Bool.and_eq_true, decide_eq_true_eq]
  split_ifs <;> omega

lemma punct_not_space {c : Nat} (h : isAsciiPunctSym c = true) :
    isPySpace c = false := by
  simp only [isAsciiPunctSym, Bool.or_eq_true, Bool.and_eq_true,
    decide_eq_true_eq] at h
  simp only [isPySpace, Bool.or_eq_false_iff, decide_eq_false_iff_not]
  omega

lemma punct_not_letter {c : Nat} (h : isAsciiPunctSym c = true) :
    (isCyrLower c || isLatinLower c || isPySpace c) = false := by
  simp only [isAsciiPunctSym, Bool.or_eq_true, Bool.and_eq_true,
    decide_eq_true_eq] at h
  simp only [isCyrLower, isLatinLower, isPySpace, Bool.or_eq_false_iff,
    Bool.and_eq_false_iff, decide_eq_false_iff_not]
  omega

lemma map_fixed_of_all {f : Nat → Nat} {l : PyStr} (h : ∀ c ∈ l, f c = c) :
    l.map f = l := by
  induction l with
  | nil => rfl
  | cons a t ih =>
    simp only [List.map_cons, List.cons.injEq]
    exact ⟨h a (List.mem_cons_self a t), ih fun c hc => h c (List.mem_cons_of_mem a hc)⟩

lemma dropWhile_of_all_neg {p : Nat → Bool} {l : PyStr}
    (h : ∀ c ∈ l, p c = false) : l.dropWhile p = l := by
  cases l with
  | nil => rfl
  | cons a t => simp [List.dropWhile_cons, h a (List.mem_cons_self a t)]

lemma pyStrip_of_no_space {l : PyStr} (h : ∀ c ∈ l, isPySpace c = false) :
    pyStrip l = l := by
  unfold pyStrip
  rw [dropWhile_of_all_neg h,
    dropWhile_of_all_neg (fun c hc => h c (List.mem_reverse.mp hc)),
    List.reverse_reverse]

/-- Claim C9 counterexample: the result text ".." has length 2 ≤ 5, is
composed only of punctuation characters, and the prompt is nonempty, yet
the filter returns it unchanged: the hallucination detector ignores every
text shorter than 3 characters. -/
theorem C9_counterexample :
    filter_prompt_from_result (pyOfString "..") TRANSCRIPTION_PROMPT = pyOfString ".." ∧
      (pyOfString "..").length ≤ 5 ∧
      (pyOfString "..").all isAsciiPunctSym = true ∧
      TRANSCRIPTION_PROMPT ≠ [] ∧
      (pyOfString ".." : PyStr) ≠ [] := by
  refine ⟨by decide, by decide, by decide, by decide, by decide⟩

/-- Claim C9 amended: for every result text of length between 3 and 5
composed only of punctuation/symbol characters, and every non-empty
prompt, the filter returns the empty string (texts of length at most 2 are
exempted by the hallucination detector's minimum-length guard). -/
theorem C9_amended_punct_filtered (text prompt : PyStr)
    (hlen3 : 3 ≤ text.length) (hlen5 : text.length ≤ 5)
    (hpunct : text.all isAsciiPunctSym = true) (hprompt : prompt ≠ []) :
    filter_prompt_from_result text prompt = [] := by
  have hall : ∀ c ∈ text, isAsciiPunctSym c = true := List.all_eq_true.mp hpunct
  have hlow : pyLower text = text :=
    map_fixed_of_all fun c hc => lowerCode_fixed_of_punct (hall c hc)
  have hstrip : pyStrip text = text :=
    pyStrip_of_no_space fun c hc => punct_not_space (hall c hc)
  have hrl : pyStrip (pyLower text) = text := by rw [hlow, hstrip]
  have hhal : is_likely_hallucination text = true := by
    have h2 : text.all (fun c => !(isCyrLower c || isLatinLower c || isPySpace c)) = true := by
      rw [List.all_eq_true]
      intro c hc
      rw [punct_not_letter (hall c hc)]
      rfl
    unfold is_likely_hallucination
    rw [if_neg (by omega)]
    by_cases hb : (text.length ≤ 5 && text.all isPunctRule1) = true
    · rw [if_pos hb]
    · rw [if_neg hb, if_pos h2]
  have hne : text.isEmpty = false := by
    cases text with
    | nil => simp at hlen3
    | cons a t => rfl
  have hpe : prompt.isEmpty = false := by
    cases prompt with
    | nil => exact absurd rfl hprompt
    | cons a t => rfl
  unfold filter_prompt_from_result
  rw [hne, hpe, if_neg (by simp)]
  dsimp only
  rw [hrl]
  split_ifs with hc1 hc2 hc3 <;> rfl

/-- Witness for C9 amended at the text "..." and a one-character prompt. -/
theorem C9_amended_punct_filtered_witness :
    filter_prompt_from_result (pyOfString "...") (pyOfString "п") = [] :=
  C9_amended_punct_filtered (pyOfString "...") (pyOfString "п")
    (by decide) (by decide) (by decide) (by decide)

lemma lowerCode_idem (c : Nat) : lowerCode (lowerCode c) = lowerCode c := by
  unfold lowerCode isUpperLatin isUpperCyr
  simp only [Bool.and_eq_true, decide_eq_true_eq]
  split_ifs <;> omega

lemma pyStrip_mem {l : PyStr} {c : Nat} (hc : c ∈ pyStrip l) : c ∈ l := by
  unfold pyStrip at hc
  rw [List.mem_reverse] at hc
  have h1 := (List.dropWhile_sublist (l := (l.dropWhile isPySpace).reverse)
    (p := isPySpace)).mem hc
  rw [List.mem_reverse] at h1
  exact (List.dropWhile_sublist (l := l) (p := isPySpace)).mem h1

lemma pyLower_fixed_on_strip (l : PyStr) :
    pyLower (pyStrip (pyLower l)) = pyStrip (pyLower l) := by
  apply map_fixed_of_all
  intro c hc
  have hmem : c ∈ pyLower l := pyStrip_mem hc
  obtain ⟨c0, _, rfl⟩ := List.mem_map.mp hmem
  exact lowerCode_idem c0

lemma tokensByAux_all_neg {p : Nat → Bool} {post : PyStr}
    (h : ∀ c ∈ post, p c = false) (acc : PyStr) :
    tokensByAux p post acc = if acc.isEmpty then [] else [acc.reverse] := by
  induction post generalizing acc with
  | nil => rfl
  | cons a t ih =>
    have ha : p a = false := h a (List.mem_cons_self a t)
    have ht : ∀ c ∈ t, p c = false := fun c hc => h c (List.mem_cons_of_mem a hc)
    show (if p a then tokensByAux p t (a :: acc)
      else if acc.isEmpty then tokensByAux p t []
      else acc.reverse :: tokensByAux p t []) = _
    rw [ha]
    simp only [Bool.false_eq_true, if_false]
    by_cases hacc : acc.isEmpty
    · rw [if_pos hacc, if_pos hacc, ih ht]
      rfl
    · rw [if_neg hacc, if_neg hacc, ih ht]
      rfl

lemma tokensBy_append_neg {p : Nat → Bool} {post : PyStr}
    (h : ∀ c ∈ post, p c = false) (l : PyStr) :
    tokensBy p (l ++ post) = tokensBy p l := by
  suffices haux : ∀ acc, tokensByAux p (l ++ post) acc = tokensByAux p l acc from
    haux []
  induction l with
  | nil =>
    intro acc
    rw [List.nil_append, tokensByAux_all_neg h acc]
    rfl
  | cons a t ih =>
    intro acc
    rw [List.cons_append]
    show (if p a then tokensByAux p (t ++ post) (a :: acc)
      else if acc.isEmpty then tokensByAux p (t ++ post) []
      else acc.reverse :: tokensByAux p (t ++ post) []) = _
    simp only [ih]
    rfl

lemma tokensBy_dropWhileSp {p : Nat → Bool}
    (hp : ∀ c, isPySpace c = true → p c = false) (l : PyStr) :
    tokensBy p (l.dropWhile isPySpace) = tokensBy p l := by
  induction l with
  | nil => rfl
  | cons a t ih =>
    rw [List.dropWhile_cons]
    by_cases hsp : isPySpace a = true
    · rw [if_pos hsp, ih]
      have hpa : p a = false := hp a hsp
      show tokensBy p t = tokensBy p (a :: t)
      unfold tokensBy
      show _ = (if p a then tokensByAux p t [a]
        else if ([] : PyStr).isEmpty then tokensByAux p t []
        else [].reverse :: tokensByAux p t [])
      rw [hpa]
      rfl
    · rw [if_neg hsp]

lemma tokensBy_pyStrip {p : Nat → Bool}
    (hp : ∀ c, isPySpace c = true → p c = false) (l : PyStr) :
    tokensBy p (pyStrip l) = tokensBy p l := by
  unfold pyStrip
  have hdec : l.dropWhile isPySpace =
      ((l.dropWhile isPySpace).reverse.dropWhile isPySpace).reverse ++
        ((l.dropWhile isPySpace).reverse.takeWhile isPySpace).reverse := by
    conv_lhs => rw [← List.reverse_reverse (l.dropWhile isPySpace),
      ← List.takeWhile_append_dropWhile (p := isPySpace)
        (l := (l.dropWhile isPySpace).reverse)]
    rw [List.reverse_append]
  have hpost : ∀ c ∈ ((l.dropWhile isPySpace).reverse.takeWhile isPySpace).reverse,
      p c = false := by
    intro c hc
    rw [List.mem_reverse] at hc
    exact hp c (List.mem_takeWhile_imp hc)
  calc tokensBy p (((l.dropWhile isPySpace).reverse.dropWhile isPySpace).reverse)
      = tokensBy p (((l.dropWhile isPySpace).reverse.dropWhile isPySpace).reverse ++
          ((l.dropWhile isPySpace).reverse.takeWhile isPySpace).reverse) :=
        (tokensBy_append_neg hpost _).symm
    _ = tokensBy p (l.dropWhile isPySpace) := by rw [← hdec]
    _ = tokensBy p l := tokensBy_dropWhileSp hp l

lemma alpha_not_space (c : Nat) (h : isPySpace c = true) : isAlphaWord c = false := by
  simp only [isPySpace, Bool.or_eq_true, decide_eq_true_eq] at h
  simp only [isAlphaWord, isLatinLower, isCyrLower, Bool.or_eq_false_iff,
    Bool.and_eq_false_iff, decide_eq_false_iff_not]
  omega

lemma dedup_replicate {w : PyStr} {k : Nat} (hk : 1 ≤ k) :
    (List.replicate k w).dedup = [w] := by
  induction k with
  | zero => exact absurd hk (by omega)
  | succ n ih =>
    cases Nat.eq_zero_or_pos n with
    | inl h0 => subst h0; simp
    | inr hpos =>
      rw [List.replicate_succ,
        List.dedup_cons_of_mem (List.mem_replicate.mpr ⟨by omega, rfl⟩)]
      exact ih hpos

/-- Claim C10 counterexample: the transcript made of three occurrences of
the 13-letter word consideration has alphabetic content of a single
distinct word totalling 39 ≤ 40 characters and is not caught by the
lexical noise rule, yet classify does NOT return music immediately: the
code bounds the space-joined word string (length 41 > 40), the
vocalization heuristic does not fire, and the LLM arbitration step runs. -/
theorem C10_counterexample :
    findAlphaWords (pyLower (pyOfString "consideration consideration consideration")) =
      List.replicate 3 (pyOfString "consideration") ∧
      (pyOfString "consideration").length = 13 ∧
      looks_like_noise (pyOfString "consideration consideration consideration") = false ∧
      looks_like_vocalizations
        (pyOfString "consideration consideration consideration") = false ∧
      classify_audio ⟨[], false, LlmResp.err⟩
        (some (pyOfString "consideration consideration consideration")) =
        (catNoise, true) := by
  refine ⟨by decide, by decide, by decide, by decide, by decide⟩

/-- Claim C10 amended: for every transcript whose lowered alphabetic word
list consists of k ≥ 1 occurrences of a single word w with the SPACE-JOINED
word string at most 40 characters long (total alphabetic length plus one
separator per gap), and which is not caught by the repeated-consonant noise
rule, classify returns music immediately, and the LLM arbitration step is
not invoked. -/
theorem C10_amended_single_word_music (text w : PyStr) (k : Nat) (env : ClassifyEnv)
    (htok : findAlphaWords (pyLower text) = List.replicate k w)
    (hk : 1 ≤ k)
    (hjoin : joinSpLen (List.replicate k w) ≤ 40)
    (hshush : ¬(pyStrip (pyLower text) ≠ [] ∧
      (pyStrip (pyLower text)).all isShush = true ∧
      (pyStrip (pyLower text)).length ≤ 10)) :
    classify_audio env (some text) = (catMusic, false) := by
  have htext : text ≠ [] := by
    intro h
    rw [h] at htok
    have hlen : (List.replicate k w).length = 0 := by rw [← htok]; rfl
    rw [List.length_replicate] at hlen
    omega
  have hremp : text.isEmpty = false := by
    cases text with
    | nil => exact absurd rfl htext
    | cons a t => rfl
  have hded : countDistinct (List.replicate k w) = 1 := by
    unfold countDistinct
    rw [dedup_replicate hk]
    rfl
  have key : ∀ u : PyStr, u.isEmpty = false →
      findAlphaWords (pyLower u) = List.replicate k w →
      looks_like_vocalizations u = true := by
    intro u hu htoku
    unfold looks_like_vocalizations
    rw [hu]
    simp only [Bool.false_eq_true, if_false]
    by_cases hp : vocalPatternHit (pyLower u) = true
    · rw [if_pos hp]
    · rw [if_neg hp, htoku]
      rw [Bool.and_eq_true, decide_eq_true_eq, decide_eq_true_eq]
      refine ⟨hjoin, ?_⟩
      rw [hded]
      exact le_max_left _ _
  have hvoc : looks_like_vocalizations text = true := key text hremp htok
  have hms : pyLower (pyStrip (pyLower text)) = pyStrip (pyLower text) :=
    pyLower_fixed_on_strip text
  have htoks : findAlphaWords (pyLower (pyStrip (pyLower text))) = List.replicate k w := by
    rw [hms]
    unfold findAlphaWords
    rw [tokensBy_pyStrip alpha_not_space]
    exact htok
  have hstripne : (pyStrip (pyLower text)).isEmpty = false := by
    cases hsp : pyStrip (pyLower text) with
    | nil =>
      rw [hsp] at htoks
      have h0 : (List.replicate k w).length = 0 := by rw [← htoks]; rfl
      rw [List.length_replicate] at h0
      omega
    | cons a t => rfl
  have hvocs : looks_like_vocalizations (pyStrip (pyLower text)) = true :=
    key _ hstripne htoks
  have hnoise : looks_like_noise text = false := by
    unfold looks_like_noise
    rw [hremp]
    simp only [Bool.false_eq_true, if_false]
    rw [hvocs]
    simp only [Bool.not_true, Bool.and_false, Bool.false_eq_true, if_false]
    rw [if_neg ?hB]
    case hB =>
      intro hcon
      apply hshush
      rw [Bool.and_eq_true, Bool.and_eq_true] at hcon
      obtain ⟨⟨hne1, hall1⟩, hlen1⟩ := hcon
      refine ⟨?_, hall1, by simpa using hlen1⟩
      intro h0
      rw [h0] at hne1
      simp at hne1
  unfold classify_audio
  dsimp only
  rw [hnoise, hvoc, hremp]
  simp [catMusic]

/-- Witness for C10 amended at the single-word transcript привет. -/
theorem C10_amended_single_word_music_witness :
    classify_audio ⟨[], false, LlmResp.err⟩ (some (pyOfString "привет")) =
      (catMusic, false) :=
  C10_amended_single_word_music (pyOfString "привет") (pyOfString "привет") 1
    ⟨[], false, LlmResp.err⟩ (by decide) (by decide) (by decide) (by decide)

end AiTranscribe
